import Mathlib

/-!
Verification of the puzzle asset-optimization pipeline
(`src/tools/optimize_puzzle_assets.py`, `optimize_puzzle_assets_fixed.py`,
`optimize_puzzle_assets_no_padding.py`).

Shallow embedding conventions:
* A PIL RGBA image is modelled as a width, a height, and a total pixel
  function; only pixels with row < height and column < width are meaningful.
* numpy boolean reductions over the alpha channel are modelled with
  `List.range`/`List.any`/`List.map`, and `np.argmax` on a boolean vector
  (index of the first `True`, `0` when every entry is `False`) is `npArgmax`.
* Python ints are `Int`; byte counts are `Int`; the float statistics field
  `memory_reduction_percent` is modelled over `Rat`.
* File-system side effects (loading a PNG, writing output) are abstracted:
  a piece file is a `PieceInput` that either loads to an image or raises
  during processing (every such exception is caught by `optimize_piece` in
  the source and turned into `None`).
* `hashlib`/`content_hash` is an external-library concern not needed by any
  claim and is omitted from the per-piece record.
-/

namespace PuzzleAssets

/-- One RGBA pixel; channels are 8-bit in the source but only `a = 0` versus
`a > 0` ever matters to the pipeline. -/
structure RGBA where
  r : Nat
  g : Nat
  b : Nat
  a : Nat
deriving DecidableEq

/-- A PIL image in RGBA mode: dimensions plus a pixel lookup
(`pix row col`). -/
structure Image where
  width : Nat
  height : Nat
  pix : Nat → Nat → RGBA

/-- `BoundingBox` from `optimize_puzzle_assets.py` (also `_fixed.py` and
`_no_padding.py`, which declare the identical NamedTuple): four integer
pixel coordinates, inclusive endpoints. -/
structure BoundingBox where
  left : Int
  top : Int
  right : Int
  bottom : Int
deriving DecidableEq

/-- `BoundingBox.width` as computed in `optimize_puzzle_assets.py` lines
44-46 and `optimize_puzzle_assets_fixed.py` lines 38-40:
`int(self.right - self.left)`. -/
def BoundingBox.width (b : BoundingBox) : Int := b.right - b.left

/-- `BoundingBox.height` as computed in `optimize_puzzle_assets.py` lines
48-50 and `optimize_puzzle_assets_fixed.py` lines 42-44:
`int(self.bottom - self.top)`. -/
def BoundingBox.height (b : BoundingBox) : Int := b.bottom - b.top

/-- `BoundingBox.width` as computed in `optimize_puzzle_assets_no_padding.py`
lines 38-40: `int(self.right - self.left + 1)  # Inclusive bounds`. -/
def NoPadding.width (b : BoundingBox) : Int := b.right - b.left + 1

/-- `BoundingBox.height` as computed in
`optimize_puzzle_assets_no_padding.py` lines 42-44:
`int(self.bottom - self.top + 1)  # Inclusive bounds`. -/
def NoPadding.height (b : BoundingBox) : Int := b.bottom - b.top + 1

/-- `np.argmax` applied to a boolean vector: the index of the first `True`
entry, and `0` when no entry is `True` (all entries equal, first maximum). -/
def npArgmax (l : List Bool) : Nat :=
  if l.any id then l.findIdx id else 0

/-- One entry of `non_transparent = alpha_channel > 0`
(`optimize_puzzle_assets.py` lines 97-101). -/
def nonTransparent (img : Image) (i j : Nat) : Bool :=
  decide (0 < (img.pix i j).a)

/-- One entry of `rows = np.any(non_transparent, axis=1)`: does row `i`
contain a pixel with non-zero alpha. -/
def rowHasContent (img : Image) (i : Nat) : Bool :=
  (List.range img.width).any (fun j => nonTransparent img i j)

/-- One entry of `cols = np.any(non_transparent, axis=0)`: does column `j`
contain a pixel with non-zero alpha. -/
def colHasContent (img : Image) (j : Nat) : Bool :=
  (List.range img.height).any (fun i => nonTransparent img i j)

/-- The vector `rows = np.any(non_transparent, axis=1)`
(`optimize_puzzle_assets.py` line 108). -/
def rowsAny (img : Image) : List Bool :=
  (List.range img.height).map (rowHasContent img)

/-- The vector `cols = np.any(non_transparent, axis=0)`
(`optimize_puzzle_assets.py` line 109). -/
def colsAny (img : Image) : List Bool :=
  (List.range img.width).map (colHasContent img)

/-- The guard `np.any(non_transparent)` (`optimize_puzzle_assets.py` line
103): does any pixel of the image have non-zero alpha. -/
def hasAnyContent (img : Image) : Bool :=
  (List.range img.height).any (rowHasContent img)

/-- `PuzzleOptimizer.find_content_bounds` (`optimize_puzzle_assets.py` lines
83-116; the same function appears verbatim in `_fixed.py` lines 84-117 and
`_no_padding.py` lines 77-110):
`top = argmax(rows)`, `bottom = len(rows) - 1 - argmax(rows[::-1])`,
`left = argmax(cols)`, `right = len(cols) - 1 - argmax(cols[::-1])`,
returning `None` when the image is completely transparent. -/
def find_content_bounds (img : Image) : Option BoundingBox :=
  if hasAnyContent img then
    some { left := (npArgmax (colsAny img) : Int)
           top := (npArgmax (rowsAny img) : Int)
           right := (((colsAny img).length - 1 - npArgmax (colsAny img).reverse : Nat) : Int)
           bottom := (((rowsAny img).length - 1 - npArgmax (rowsAny img).reverse : Nat) : Int) }
  else
    none

/-- `PIL.Image.crop((l, t, r, b))`: returns an image of size
`(r - l) x (b - t)` whose pixel `(i, j)` is the source pixel
`(t + i, l + j)`, with fully transparent black for coordinates that fall
outside the source image. -/
def pilCrop (img : Image) (l t r b : Int) : Image where
  width := (r - l).toNat
  height := (b - t).toNat
  pix := fun i j =>
    if 0 ≤ t + (i : Int) ∧ t + (i : Int) < (img.height : Int) ∧
       0 ≤ l + (j : Int) ∧ l + (j : Int) < (img.width : Int) then
      img.pix (t + (i : Int)).toNat (l + (j : Int)).toNat
    else
      { r := 0, g := 0, b := 0, a := 0 }

/-- `PuzzleOptimizer.crop_image_to_bounds` (`optimize_puzzle_assets.py`
lines 118-138): pad the inclusive bounds by `padding`, clamp to the image,
then crop with the exclusive PIL box
`(padded_left, padded_top, padded_right + 1, padded_bottom + 1)`. -/
def crop_image_to_bounds (img : Image) (bounds : BoundingBox) (padding : Int) : Image :=
  pilCrop img
    (max 0 (bounds.left - padding))
    (max 0 (bounds.top - padding))
    (min ((img.width : Int) - 1) (bounds.right + padding) + 1)
    (min ((img.height : Int) - 1) (bounds.bottom + padding) + 1)

/-- The cropped image built by `PuzzleOptimizer.create_optimized_crop`
(`optimize_puzzle_assets_fixed.py` lines 119-167): the clamp is done
directly on the exclusive coordinates,
`crop_right = min(image.width, content_bounds.right + padding + 1)`. -/
def create_optimized_crop (img : Image) (content_bounds : BoundingBox) (padding : Int) : Image :=
  pilCrop img
    (max 0 (content_bounds.left - padding))
    (max 0 (content_bounds.top - padding))
    (min (img.width : Int) (content_bounds.right + padding + 1))
    (min (img.height : Int) (content_bounds.bottom + padding + 1))

/-- `PieceOptimizationResult` (`optimize_puzzle_assets.py` lines 62-69).
`_no_padding.py` names the bounds field `content_bounds`; the data is the
same. The `content_hash` field (external hashing library) is omitted. -/
structure PieceOptimizationResult where
  piece_id : String
  original_size : Nat × Nat
  bounds : BoundingBox
  cropped_image : Image
  memory_saved_bytes : Int

/-- `PuzzleOptimizer.optimize_piece` (`optimize_puzzle_assets.py` lines
145-195) for an image that loaded successfully: find the content bounds,
skip the piece (`None`) when fully transparent, otherwise crop with
`padding=2` and record `memory_saved = original_bytes - cropped_bytes`
at 4 bytes per RGBA pixel. -/
def optimize_piece (piece_id : String) (img : Image) : Option PieceOptimizationResult :=
  match find_content_bounds img with
  | none => none
  | some bounds =>
      some { piece_id := piece_id
             original_size := (img.width, img.height)
             bounds := bounds
             cropped_image := crop_image_to_bounds img bounds 2
             memory_saved_bytes :=
               (img.width : Int) * (img.height : Int) * 4 -
                 ((crop_image_to_bounds img bounds 2).width : Int) *
                   ((crop_image_to_bounds img bounds 2).height : Int) * 4 }

/-- A piece PNG file as seen by `optimize_piece`: it either loads to an
image, or some step raises an exception (unreadable file, decode error...),
which the try/except in `optimize_piece` lines 155/193-195 converts to
`None`. -/
inductive PieceInput where
  | ok (piece_id : String) (img : Image)
  | loadError

/-- `optimize_piece` on a piece file, including the try/except wrapper of
`optimize_puzzle_assets.py` lines 193-195: every per-piece exception
results in `None`. -/
def optimize_piece_checked : PieceInput → Option PieceOptimizationResult
  | .loadError => none
  | .ok piece_id img => optimize_piece piece_id img

/-- The result-collection loop of `PuzzleOptimizer.optimize_grid_size`
(`optimize_puzzle_assets.py` lines 237-246): keep exactly the pieces for
which `optimize_piece` returned a result. -/
def process_pieces (files : List PieceInput) : List PieceOptimizationResult :=
  files.filterMap optimize_piece_checked

/-- The accumulator `total_original_bytes` of the same loop (line 245):
sum of `original_size[0] * original_size[1] * 4` over the kept results. -/
def total_original_bytes (results : List PieceOptimizationResult) : Int :=
  results.foldl
    (fun acc r => acc + (r.original_size.1 : Int) * (r.original_size.2 : Int) * 4) 0

/-- The accumulator `total_saved_bytes` of the same loop (line 246). -/
def total_saved_bytes (results : List PieceOptimizationResult) : Int :=
  results.foldl (fun acc r => acc + r.memory_saved_bytes) 0

/-- The directory-level inputs of `optimize_grid_size`: whether the
`pieces` directory exists, and the piece files found in it. -/
structure GridSizeInput where
  pieces_dir_exists : Bool
  piece_files : List PieceInput

/-- Control flow of `PuzzleOptimizer.optimize_grid_size`
(`optimize_puzzle_assets.py` lines 197-267): `False` when the pieces
directory is missing (line 211-213), `False` when no piece was successfully
optimized (lines 248-250), otherwise metadata is written and the function
returns `True` (line 267). -/
def optimize_grid_size (input : GridSizeInput) : Bool :=
  if !input.pieces_dir_exists then
    false
  else if (process_pieces input.piece_files).isEmpty then
    false
  else
    true

/-- The `bounds` dictionary written for one piece
(`optimize_puzzle_assets.py` lines 287-294). -/
structure BoundsDict where
  left : Int
  top : Int
  right : Int
  bottom : Int
  width : Int
  height : Int
deriving DecidableEq

/-- One entry of the `pieces` map of the metadata document
(`optimize_puzzle_assets.py` lines 296-304). -/
structure PieceEntry where
  piece_id : String
  bounds : BoundsDict
  canvas_width : Int
  canvas_height : Int
  cropped_filename : String
deriving DecidableEq

/-- The `statistics` object of the metadata document
(`optimize_puzzle_assets.py` lines 313-319). -/
structure Statistics where
  memory_reduction_percent : Rat
  total_pieces : Nat
  original_total_bytes : Int
  optimized_total_bytes : Int
  bytes_saved : Int
deriving DecidableEq

/-- The optimization metadata document (`optimize_puzzle_assets.py` lines
306-320; the constant `version: "1.0"` field is omitted). -/
structure OptimizationMetadata where
  canvas_width : Int
  canvas_height : Int
  pieces : List PieceEntry
  statistics : Statistics

/-- `PuzzleOptimizer._generate_optimization_metadata`
(`optimize_puzzle_assets.py` lines 279-320): for each result it writes the
detected bounds together with `bounds.width`/`bounds.height` (the
`right - left` / `bottom - top` properties) with no comparison against the
cropped image, then the aggregate statistics with
`memory_reduction_percent = saved / original * 100` guarded by
`if total_original_bytes > 0 else 0.0`. -/
def generate_optimization_metadata (results : List PieceOptimizationResult)
    (canvas_width canvas_height : Int)
    (total_original total_saved : Int) : OptimizationMetadata where
  canvas_width := canvas_width
  canvas_height := canvas_height
  pieces := results.map (fun result =>
    { piece_id := result.piece_id
      bounds :=
        { left := result.bounds.left
          top := result.bounds.top
          right := result.bounds.right
          bottom := result.bounds.bottom
          width := result.bounds.width
          height := result.bounds.height }
      canvas_width := canvas_width
      canvas_height := canvas_height
      cropped_filename := result.piece_id ++ ".png" })
  statistics :=
    { memory_reduction_percent :=
        if 0 < total_original then
          ((total_saved : Rat) / (total_original : Rat)) * 100
        else 0
      total_pieces := results.length
      original_total_bytes := total_original
      optimized_total_bytes := total_original - total_saved
      bytes_saved := total_saved }

/-- The piece-entry loop of the no-padding variant,
`PuzzleOptimizer._generate_optimization_metadata`
(`optimize_puzzle_assets_no_padding.py` lines 288-324): before writing an
entry it compares the actual cropped image size with
`content_bounds.width`/`content_bounds.height` (the inclusive `+ 1`
properties) and raises `ValueError` on any mismatch. -/
def NoPadding.buildPieceEntries (canvas_width canvas_height : Int) :
    List PieceOptimizationResult → Except String (List PieceEntry)
  | [] => .ok []
  | result :: rest =>
      if (result.cropped_image.width : Int) ≠ NoPadding.width result.bounds ∨
         (result.cropped_image.height : Int) ≠ NoPadding.height result.bounds then
        .error "dimension mismatch"
      else
        match NoPadding.buildPieceEntries canvas_width canvas_height rest with
        | .error e => .error e
        | .ok tail =>
            .ok ({ piece_id := result.piece_id
                   bounds :=
                     { left := result.bounds.left
                       top := result.bounds.top
                       right := result.bounds.right
                       bottom := result.bounds.bottom
                       width := NoPadding.width result.bounds
                       height := NoPadding.height result.bounds }
                   canvas_width := canvas_width
                   canvas_height := canvas_height
                   cropped_filename := result.piece_id ++ ".png" } :: tail)

/-- The no-padding variant of `_generate_optimization_metadata`
(`optimize_puzzle_assets_no_padding.py` lines 282-340): a raised
`ValueError` aborts the whole document; otherwise the same statistics as
the main variant are attached. -/
def NoPadding.generate_optimization_metadata (results : List PieceOptimizationResult)
    (canvas_width canvas_height : Int)
    (total_original total_saved : Int) : Except String OptimizationMetadata :=
  match NoPadding.buildPieceEntries canvas_width canvas_height results with
  | .error e => .error e
  | .ok pieces =>
      .ok { canvas_width := canvas_width
            canvas_height := canvas_height
            pieces := pieces
            statistics :=
              { memory_reduction_percent :=
                  if 0 < total_original then
                    ((total_saved : Rat) / (total_original : Rat)) * 100
                  else 0
                total_pieces := results.length
                original_total_bytes := total_original
                optimized_total_bytes := total_original - total_saved
                bytes_saved := total_saved } }

/-- Whether an `Except` value is a success. -/
def exceptIsOk {ε α : Type} : Except ε α → Bool
  | .ok _ => true
  | .error _ => false

/-! Concrete test images used to instantiate the theorems. -/

/-- A 10x10 image whose opaque content is the square with rows 2..7 and
columns 2..7 (inclusive), surrounded by transparent padding. -/
def exImg : Image where
  width := 10
  height := 10
  pix := fun i j =>
    if 2 ≤ i ∧ i ≤ 7 ∧ 2 ≤ j ∧ j ≤ 7 then { r := 255, g := 0, b := 0, a := 255 }
    else { r := 0, g := 0, b := 0, a := 0 }

/-- The content bounds that `find_content_bounds` detects on `exImg`. -/
def exBounds : BoundingBox := { left := 2, top := 2, right := 7, bottom := 7 }

/-- The `PieceOptimizationResult` that `optimize_piece` produces on
`exImg`: cropping bounds 2..7 with padding 2 clamps to the whole 10x10
image, so nothing is saved. -/
def exPieceResult : PieceOptimizationResult where
  piece_id := "piece"
  original_size := (10, 10)
  bounds := exBounds
  cropped_image := crop_image_to_bounds exImg exBounds 2
  memory_saved_bytes := 0

/-- A 3x3 image with a single non-transparent pixel at row 1, column 1. -/
def exImgSmall : Image where
  width := 3
  height := 3
  pix := fun i j =>
    if i = 1 ∧ j = 1 then { r := 9, g := 8, b := 7, a := 5 }
    else { r := 0, g := 0, b := 0, a := 0 }

/-- A fully transparent 2x2 image. -/
def exImgTransparent : Image where
  width := 2
  height := 2
  pix := fun _ _ => { r := 0, g := 0, b := 0, a := 0 }

/-- A 2x2 image with one opaque pixel at row 0, column 1. -/
def exImgColorA : Image where
  width := 2
  height := 2
  pix := fun i j =>
    if i = 0 ∧ j = 1 then { r := 10, g := 20, b := 30, a := 200 }
    else { r := 1, g := 2, b := 3, a := 0 }

/-- The same alpha channel as `exImgColorA` but entirely different color
channels. -/
def exImgColorB : Image where
  width := 2
  height := 2
  pix := fun i j =>
    if i = 0 ∧ j = 1 then { r := 99, g := 98, b := 97, a := 200 }
    else { r := 77, g := 66, b := 55, a := 0 }

/-- A 100x90 fully opaque image, standing for the cropped piece of the
400x400-to-100x90 scenario. -/
def demoCropped : Image where
  width := 100
  height := 90
  pix := fun _ _ => { r := 255, g := 255, b := 255, a := 255 }

/-- One piece of the aggregate-statistics scenario: a 400x400 original
reduced to a 100x90 crop at 4 bytes per pixel. -/
def demoResult : PieceOptimizationResult where
  piece_id := "piece_0_0"
  original_size := (400, 400)
  bounds := { left := 50, top := 30, right := 149, bottom := 119 }
  cropped_image := demoCropped
  memory_saved_bytes := 400 * 400 * 4 - 100 * 90 * 4

/-- A batch of four such pieces. -/
def demoResults : List PieceOptimizationResult :=
  [demoResult, demoResult, demoResult, demoResult]

/-! Basic facts about `npArgmax` on boolean vectors that contain a `True`:
it is a valid index, it points at a `True`, and everything before it is
`False`; the mirrored index `length - 1 - npArgmax reverse` points at the
last `True`, and everything after it is `False`. -/

theorem npArgmax_lt_length {l : List Bool} (h : l.any id = true) :
    npArgmax l < l.length := by
  rw [npArgmax, if_pos h]
  exact List.findIdx_lt_length_of_exists (by simpa using h)

theorem npArgmax_true {l : List Bool} (h : l.any id = true)
    (hlt : npArgmax l < l.length) : l.get ⟨npArgmax l, hlt⟩ = true := by
  simp only [npArgmax, if_pos h] at hlt ⊢
  simpa using @List.findIdx_getElem Bool id l hlt

theorem npArgmax_false_of_lt {l : List Bool} {k : Nat} (h : l.any id = true)
    (hk : k < npArgmax l) (hkl : k < l.length) : l.get ⟨k, hkl⟩ = false := by
  simp only [npArgmax, if_pos h] at hk
  simpa using @List.not_of_lt_findIdx Bool id l k hk

theorem npArgmax_reverse_lt {l : List Bool} (h : l.any id = true) :
    npArgmax l.reverse < l.length := by
  have := npArgmax_lt_length (l := l.reverse) (by simpa using h)
  simpa using this

theorem last_true {l : List Bool} (h : l.any id = true)
    (hlt : l.length - 1 - npArgmax l.reverse < l.length) :
    l.get ⟨l.length - 1 - npArgmax l.reverse, hlt⟩ = true := by
  have hrev : l.reverse.any id = true := by simpa using h
  have hm : npArgmax l.reverse < l.reverse.length := by
    simpa using npArgmax_reverse_lt h
  have := npArgmax_true hrev hm
  simpa using this

theorem last_false_of_gt {l : List Bool} {k : Nat} (h : l.any id = true)
    (hk : l.length - 1 - npArgmax l.reverse < k) (hkl : k < l.length) :
    l.get ⟨k, hkl⟩ = false := by
  have hrev : l.reverse.any id = true := by simpa using h
  have hm : npArgmax l.reverse < l.length := npArgmax_reverse_lt h
  have hk2 : l.length - 1 - k < npArgmax l.reverse := by omega
  have hk2l : l.length - 1 - k < l.reverse.length := by simpa using by omega
  have hfalse := npArgmax_false_of_lt hrev hk2 hk2l
  have hrw : l.reverse.get ⟨l.length - 1 - k, hk2l⟩ = l.get ⟨k, hkl⟩ := by
    simp only [List.get_eq_getElem, List.getElem_reverse]
    congr 1
    omega
  rw [hrw] at hfalse
  exact hfalse

theorem npArgmax_le_last {l : List Bool} (h : l.any id = true) :
    npArgmax l ≤ l.length - 1 - npArgmax l.reverse := by
  by_contra hlt
  push_neg at hlt
  have hm : npArgmax l.reverse < l.length := npArgmax_reverse_lt h
  have hlast_lt : l.length - 1 - npArgmax l.reverse < l.length := by omega
  have h1 := last_true h hlast_lt
  have h2 := npArgmax_false_of_lt h hlt hlast_lt
  rw [h1] at h2
  cases h2

/-! Characterizations of the row/column content predicates. -/

theorem rowHasContent_iff (img : Image) (i : Nat) :
    rowHasContent img i = true ↔ ∃ j, j < img.width ∧ 0 < (img.pix i j).a := by
  simp [rowHasContent, nonTransparent, List.any_eq_true, List.mem_range]

theorem rowHasContent_eq_false (img : Image) (i : Nat) :
    rowHasContent img i = false ↔ ∀ j, j < img.width → (img.pix i j).a = 0 := by
  rw [← Bool.not_eq_true, rowHasContent_iff]
  constructor
  · intro h j hj
    by_contra hne
    exact h ⟨j, hj, Nat.pos_of_ne_zero hne⟩
  · rintro h ⟨j, hj, hpos⟩
    have := h j hj
    omega

theorem colHasContent_iff (img : Image) (j : Nat) :
    colHasContent img j = true ↔ ∃ i, i < img.height ∧ 0 < (img.pix i j).a := by
  simp [colHasContent, nonTransparent, List.any_eq_true, List.mem_range]

theorem colHasContent_eq_false (img : Image) (j : Nat) :
    colHasContent img j = false ↔ ∀ i, i < img.height → (img.pix i j).a = 0 := by
  rw [← Bool.not_eq_true, colHasContent_iff]
  constructor
  · intro h i hi
    by_contra hne
    exact h ⟨i, hi, Nat.pos_of_ne_zero hne⟩
  · rintro h ⟨i, hi, hpos⟩
    have := h i hi
    omega

theorem hasAnyContent_iff (img : Image) :
    hasAnyContent img = true ↔
      ∃ i, i < img.height ∧ ∃ j, j < img.width ∧ 0 < (img.pix i j).a := by
  simp only [hasAnyContent, List.any_eq_true, List.mem_range]
  constructor
  · rintro ⟨i, hi, hrow⟩
    exact ⟨i, hi, (rowHasContent_iff img i).mp hrow⟩
  · rintro ⟨i, hi, hj⟩
    exact ⟨i, hi, (rowHasContent_iff img i).mpr hj⟩

theorem length_rowsAny (img : Image) : (rowsAny img).length = img.height := by
  simp [rowsAny]

theorem length_colsAny (img : Image) : (colsAny img).length = img.width := by
  simp [colsAny]

theorem rowsAny_get (img : Image) (i : Nat) (h : i < (rowsAny img).length) :
    (rowsAny img).get ⟨i, h⟩ = rowHasContent img i := by
  simp [rowsAny]

theorem colsAny_get (img : Image) (j : Nat) (h : j < (colsAny img).length) :
    (colsAny img).get ⟨j, h⟩ = colHasContent img j := by
  simp [colsAny]

theorem any_map_id {α : Type} (g : α → Bool) (l : List α) :
    (l.map g).any id = l.any g := by
  induction l with
  | nil => rfl
  | cons a l ih => simp [ih]

theorem rowsAny_any (img : Image) : (rowsAny img).any id = hasAnyContent img := by
  rw [rowsAny, hasAnyContent, any_map_id]

theorem colsAny_any (img : Image) : (colsAny img).any id = hasAnyContent img := by
  rw [colsAny, any_map_id, Bool.eq_iff_iff]
  simp only [List.any_eq_true, List.mem_range]
  rw [hasAnyContent_iff]
  constructor
  · rintro ⟨j, hj, hcol⟩
    obtain ⟨i, hi, hpos⟩ := (colHasContent_iff img j).mp hcol
    exact ⟨i, hi, j, hj, hpos⟩
  · rintro ⟨i, hi, j, hj, hpos⟩
    exact ⟨j, hj, (colHasContent_iff img j).mpr ⟨i, hi, hpos⟩⟩

/-! Destructors for the two branches of `find_content_bounds`, and the
geometric properties of the box it returns. -/

theorem find_content_bounds_eq_none_iff (img : Image) :
    find_content_bounds img = none ↔ hasAnyContent img = false := by
  rw [find_content_bounds]
  by_cases hc : hasAnyContent img
  · simp [hc]
  · simp [hc, Bool.eq_false_iff.mpr hc]

theorem find_content_bounds_eq_some_elim {img : Image} {bb : BoundingBox}
    (h : find_content_bounds img = some bb) :
    hasAnyContent img = true ∧
    bb.left = (npArgmax (colsAny img) : Int) ∧
    bb.top = (npArgmax (rowsAny img) : Int) ∧
    bb.right = ((img.width - 1 - npArgmax (colsAny img).reverse : Nat) : Int) ∧
    bb.bottom = ((img.height - 1 - npArgmax (rowsAny img).reverse : Nat) : Int) := by
  rw [find_content_bounds] at h
  by_cases hc : hasAnyContent img
  · rw [if_pos hc] at h
    cases h
    refine ⟨hc, rfl, rfl, ?_, ?_⟩
    · rw [length_colsAny]
    · rw [length_rowsAny]
  · rw [if_neg hc] at h
    cases h

theorem fcb_bounds_in_range {img : Image} {bb : BoundingBox}
    (h : find_content_bounds img = some bb) :
    0 ≤ bb.left ∧ bb.left ≤ bb.right ∧ bb.right < (img.width : Int) ∧
    0 ≤ bb.top ∧ bb.top ≤ bb.bottom ∧ bb.bottom < (img.height : Int) := by
  obtain ⟨hc, hl, ht, hr, hb⟩ := find_content_bounds_eq_some_elim h
  have hrowsany : (rowsAny img).any id = true := by rw [rowsAny_any]; exact hc
  have hcolsany : (colsAny img).any id = true := by rw [colsAny_any]; exact hc
  have hW : npArgmax (colsAny img) < img.width := by
    have := npArgmax_lt_length hcolsany
    rwa [length_colsAny] at this
  have hH : npArgmax (rowsAny img) < img.height := by
    have := npArgmax_lt_length hrowsany
    rwa [length_rowsAny] at this
  have hWrev : npArgmax (colsAny img).reverse < img.width := by
    have := npArgmax_reverse_lt hcolsany
    rwa [length_colsAny] at this
  have hHrev : npArgmax (rowsAny img).reverse < img.height := by
    have := npArgmax_reverse_lt hrowsany
    rwa [length_rowsAny] at this
  have hcle : npArgmax (colsAny img) ≤ img.width - 1 - npArgmax (colsAny img).reverse := by
    have := npArgmax_le_last hcolsany
    rwa [length_colsAny] at this
  have hrle : npArgmax (rowsAny img) ≤ img.height - 1 - npArgmax (rowsAny img).reverse := by
    have := npArgmax_le_last hrowsany
    rwa [length_rowsAny] at this
  rw [hl, ht, hr, hb]
  refine ⟨?_, ?_, ?_, ?_, ?_, ?_⟩ <;> omega

theorem fcb_outside_zero {img : Image} {bb : BoundingBox}
    (h : find_content_bounds img = some bb) :
    ∀ i j : Nat, i < img.height → j < img.width →
      ((i : Int) < bb.top ∨ bb.bottom < (i : Int) ∨
       (j : Int) < bb.left ∨ bb.right < (j : Int)) →
      (img.pix i j).a = 0 := by
  obtain ⟨hc, hl, ht, hr, hb⟩ := find_content_bounds_eq_some_elim h
  have hrowsany : (rowsAny img).any id = true := by rw [rowsAny_any]; exact hc
  have hcolsany : (colsAny img).any id = true := by rw [colsAny_any]; exact hc
  intro i j hi hj hout
  rcases hout with hcase | hcase | hcase | hcase
  · rw [ht] at hcase
    have hilt : i < npArgmax (rowsAny img) := by exact_mod_cast hcase
    have hil : i < (rowsAny img).length := by rw [length_rowsAny]; exact hi
    have hfalse := npArgmax_false_of_lt hrowsany hilt hil
    rw [rowsAny_get] at hfalse
    exact (rowHasContent_eq_false img i).mp hfalse j hj
  · rw [hb] at hcase
    have hgt : (rowsAny img).length - 1 - npArgmax (rowsAny img).reverse < i := by
      rw [length_rowsAny]
      exact_mod_cast hcase
    have hil : i < (rowsAny img).length := by rw [length_rowsAny]; exact hi
    have hfalse := last_false_of_gt hrowsany hgt hil
    rw [rowsAny_get] at hfalse
    exact (rowHasContent_eq_false img i).mp hfalse j hj
  · rw [hl] at hcase
    have hjlt : j < npArgmax (colsAny img) := by exact_mod_cast hcase
    have hjl : j < (colsAny img).length := by rw [length_colsAny]; exact hj
    have hfalse := npArgmax_false_of_lt hcolsany hjlt hjl
    rw [colsAny_get] at hfalse
    exact (colHasContent_eq_false img j).mp hfalse i hi
  · rw [hr] at hcase
    have hgt : (colsAny img).length - 1 - npArgmax (colsAny img).reverse < j := by
      rw [length_colsAny]
      exact_mod_cast hcase
    have hjl : j < (colsAny img).length := by rw [length_colsAny]; exact hj
    have hfalse := last_false_of_gt hcolsany hgt hjl
    rw [colsAny_get] at hfalse
    exact (colHasContent_eq_false img j).mp hfalse i hi

theorem fcb_edges {img : Image} {bb : BoundingBox}
    (h : find_content_bounds img = some bb) :
    (∃ j, j < img.width ∧ 0 < (img.pix bb.top.toNat j).a) ∧
    (∃ j, j < img.width ∧ 0 < (img.pix bb.bottom.toNat j).a) ∧
    (∃ i, i < img.height ∧ 0 < (img.pix i bb.left.toNat).a) ∧
    (∃ i, i < img.height ∧ 0 < (img.pix i bb.right.toNat).a) := by
  obtain ⟨hc, hl, ht, hr, hb⟩ := find_content_bounds_eq_some_elim h
  have hrowsany : (rowsAny img).any id = true := by rw [rowsAny_any]; exact hc
  have hcolsany : (colsAny img).any id = true := by rw [colsAny_any]; exact hc
  refine ⟨?_, ?_, ?_, ?_⟩
  · rw [ht, Int.toNat_ofNat]
    have hlt : npArgmax (rowsAny img) < (rowsAny img).length := npArgmax_lt_length hrowsany
    have htrue := npArgmax_true hrowsany hlt
    rw [rowsAny_get] at htrue
    exact (rowHasContent_iff img _).mp htrue
  · rw [hb, Int.toNat_ofNat]
    have hlt : (rowsAny img).length - 1 - npArgmax (rowsAny img).reverse <
        (rowsAny img).length := by
      have := npArgmax_reverse_lt hrowsany
      omega
    have htrue := last_true hrowsany hlt
    rw [rowsAny_get] at htrue
    rw [length_rowsAny] at htrue
    exact (rowHasContent_iff img _).mp htrue
  · rw [hl, Int.toNat_ofNat]
    have hlt : npArgmax (colsAny img) < (colsAny img).length := npArgmax_lt_length hcolsany
    have htrue := npArgmax_true hcolsany hlt
    rw [colsAny_get] at htrue
    have hex := (colHasContent_iff img _).mp htrue
    obtain ⟨i, hi, hpos⟩ := hex
    exact ⟨i, hi, hpos⟩
  · rw [hr, Int.toNat_ofNat]
    have hlt : (colsAny img).length - 1 - npArgmax (colsAny img).reverse <
        (colsAny img).length := by
      have := npArgmax_reverse_lt hcolsany
      omega
    have htrue := last_true hcolsany hlt
    rw [colsAny_get] at htrue
    rw [length_colsAny] at htrue
    have hex := (colHasContent_iff img _).mp htrue
    obtain ⟨i, hi, hpos⟩ := hex
    exact ⟨i, hi, hpos⟩

/-! Congruence helpers over `List.range`. -/

theorem any_range_congr {n : Nat} {p q : Nat → Bool}
    (h : ∀ k, k < n → p k = q k) :
    (List.range n).any p = (List.range n).any q := by
  induction n with
  | zero => rfl
  | succ n ih =>
      rw [List.range_succ]
      simp only [List.any_append, List.any_cons, List.any_nil]
      rw [ih (fun k hk => h k (Nat.lt_succ_of_lt hk)), h n (Nat.lt_succ_self n)]

theorem map_range_congr {α : Type} {n : Nat} {f g : Nat → α}
    (h : ∀ k, k < n → f k = g k) :
    (List.range n).map f = (List.range n).map g :=
  List.map_congr_left (fun a ha => h a (List.mem_range.mp ha))

/-- C8: for two images of equal dimensions whose alpha channels agree
pixel for pixel, `find_content_bounds` returns the same result, whatever
the red, green and blue channels are. -/
theorem find_content_bounds_alpha_only (img1 img2 : Image)
    (hw : img1.width = img2.width) (hh : img1.height = img2.height)
    (ha : ∀ i, i < img1.height → ∀ j, j < img1.width →
      (img1.pix i j).a = (img2.pix i j).a) :
    find_content_bounds img1 = find_content_bounds img2 := by
  have hrow : ∀ i, i < img1.height → rowHasContent img1 i = rowHasContent img2 i := by
    intro i hi
    rw [rowHasContent, rowHasContent, ← hw]
    exact any_range_congr (fun j hj => by
      rw [nonTransparent, nonTransparent, ha i hi j hj])
  have hcol : ∀ j, j < img1.width → colHasContent img1 j = colHasContent img2 j := by
    intro j hj
    rw [colHasContent, colHasContent, ← hh]
    exact any_range_congr (fun i hi => by
      rw [nonTransparent, nonTransparent, ha i hi j hj])
  have hrows : rowsAny img1 = rowsAny img2 := by
    rw [rowsAny, rowsAny, ← hh]
    exact map_range_congr hrow
  have hcols : colsAny img1 = colsAny img2 := by
    rw [colsAny, colsAny, ← hw]
    exact map_range_congr hcol
  have hany : hasAnyContent img1 = hasAnyContent img2 := by
    rw [← rowsAny_any, ← rowsAny_any, hrows]
  rw [find_content_bounds, find_content_bounds, hany, hrows, hcols]

/-- Witness for C8 at two concrete images that share an alpha channel but
differ on every color channel. -/
theorem find_content_bounds_alpha_only_witness :
    find_content_bounds exImgColorA = find_content_bounds exImgColorB :=
  find_content_bounds_alpha_only exImgColorA exImgColorB rfl rfl (by decide)

/-- C4: on an image with at least one non-zero-alpha pixel,
`find_content_bounds` returns a box such that every in-image pixel
strictly outside the box is fully transparent and each of the four edge
rows/columns holds at least one non-zero-alpha pixel; on a fully
transparent image it returns `none`. -/
theorem find_content_bounds_correct (img : Image) :
    ((∃ i, i < img.height ∧ ∃ j, j < img.width ∧ 0 < (img.pix i j).a) →
      ∃ bb, find_content_bounds img = some bb ∧
        (∀ i j : Nat, i < img.height → j < img.width →
          ((i : Int) < bb.top ∨ bb.bottom < (i : Int) ∨
           (j : Int) < bb.left ∨ bb.right < (j : Int)) →
          (img.pix i j).a = 0) ∧
        (∃ j, j < img.width ∧ 0 < (img.pix bb.top.toNat j).a) ∧
        (∃ j, j < img.width ∧ 0 < (img.pix bb.bottom.toNat j).a) ∧
        (∃ i, i < img.height ∧ 0 < (img.pix i bb.left.toNat).a) ∧
        (∃ i, i < img.height ∧ 0 < (img.pix i bb.right.toNat).a)) ∧
    ((∀ i, i < img.height → ∀ j, j < img.width → (img.pix i j).a = 0) →
      find_content_bounds img = none) := by
  constructor
  · intro hex
    have hc : hasAnyContent img = true := (hasAnyContent_iff img).mpr hex
    have hsome : ∃ bb, find_content_bounds img = some bb := by
      rw [find_content_bounds, if_pos hc]
      exact ⟨_, rfl⟩
    obtain ⟨bb, hbb⟩ := hsome
    obtain ⟨he1, he2, he3, he4⟩ := fcb_edges hbb
    exact ⟨bb, hbb, fcb_outside_zero hbb, he1, he2, he3, he4⟩
  · intro hzero
    rw [find_content_bounds_eq_none_iff, Bool.eq_false_iff]
    intro hc
    obtain ⟨i, hi, j, hj, hpos⟩ := (hasAnyContent_iff img).mp hc
    have := hzero i hi j hj
    omega

/-- Witness for C4: `exImgSmall` has content and gets a box, the fully
transparent `exImgTransparent` gets `none`. -/
theorem find_content_bounds_correct_witness :
    find_content_bounds exImgTransparent = none ∧
    (find_content_bounds exImgSmall).isSome = true := by
  constructor
  · exact (find_content_bounds_correct exImgTransparent).2 (by decide)
  · obtain ⟨bb, hbb, -⟩ :=
      (find_content_bounds_correct exImgSmall).1 ⟨1, by decide, 1, by decide, by decide⟩
    rw [hbb]
    rfl

/-- C5: for bounds inside the image and padding at least 0,
`crop_image_to_bounds` returns exactly the pixels of the clamped padded
rectangle, its dimensions are the inclusive extent of that rectangle, and
the crop built by the fixed-variant `create_optimized_crop` is the same
image. -/
theorem crop_image_to_bounds_correct (img : Image) (b : BoundingBox) (p : Int)
    (hp : 0 ≤ p)
    (hl : 0 ≤ b.left) (hlr : b.left ≤ b.right) (hr : b.right < (img.width : Int))
    (ht : 0 ≤ b.top) (htb : b.top ≤ b.bottom) (hb : b.bottom < (img.height : Int)) :
    ((crop_image_to_bounds img b p).width : Int)
        = min ((img.width : Int) - 1) (b.right + p) - max 0 (b.left - p) + 1 ∧
    ((crop_image_to_bounds img b p).height : Int)
        = min ((img.height : Int) - 1) (b.bottom + p) - max 0 (b.top - p) + 1 ∧
    (∀ i j : Nat, i < (crop_image_to_bounds img b p).height →
      j < (crop_image_to_bounds img b p).width →
      (crop_image_to_bounds img b p).pix i j
        = img.pix ((max 0 (b.top - p)).toNat + i) ((max 0 (b.left - p)).toNat + j)) ∧
    create_optimized_crop img b p = crop_image_to_bounds img b p := by
  refine ⟨?_, ?_, ?_, ?_⟩
  · simp only [crop_image_to_bounds, pilCrop]
    omega
  · simp only [crop_image_to_bounds, pilCrop]
    omega
  · intro i j hi hj
    simp only [crop_image_to_bounds, pilCrop] at hi hj ⊢
    have hA : (max 0 (b.top - p) + (i : Int)).toNat = (max 0 (b.top - p)).toNat + i := by
      omega
    have hB : (max 0 (b.left - p) + (j : Int)).toNat = (max 0 (b.left - p)).toNat + j := by
      omega
    rw [if_pos (by refine ⟨?_, ?_, ?_, ?_⟩ <;> omega), hA, hB]
  · rw [create_optimized_crop, crop_image_to_bounds]
    have h1 : min ((img.width : Int)) (b.right + p + 1)
        = min ((img.width : Int) - 1) (b.right + p) + 1 := by omega
    have h2 : min ((img.height : Int)) (b.bottom + p + 1)
        = min ((img.height : Int) - 1) (b.bottom + p) + 1 := by omega
    rw [h1, h2]

/-- Witness for C5: the 10x10 test image with bounds 2..7 and padding 2
is cropped to the full clamped rectangle. -/
theorem crop_image_to_bounds_correct_witness :
    ((crop_image_to_bounds exImg exBounds 2).width : Int)
      = min ((exImg.width : Int) - 1) (exBounds.right + 2) - max 0 (exBounds.left - 2) + 1 :=
  (crop_image_to_bounds_correct exImg exBounds 2 (by decide) (by decide) (by decide)
    (by decide) (by decide) (by decide) (by decide)).1

/-! Sum helpers for the accumulating loop of `optimize_grid_size`. -/

theorem foldl_add_eq {α : Type} (g : α → Int) (l : List α) (a : Int) :
    l.foldl (fun acc r => acc + g r) a = a + (l.map g).sum := by
  induction l generalizing a with
  | nil => simp
  | cons x xs ih =>
      simp only [List.foldl_cons, List.map_cons, List.sum_cons]
      rw [ih]
      ring

theorem sum_nonneg_of_forall {α : Type} {g : α → Int} {l : List α}
    (h : ∀ x ∈ l, 0 ≤ g x) : 0 ≤ (l.map g).sum := by
  induction l with
  | nil => simp
  | cons x xs ih =>
      simp only [List.map_cons, List.sum_cons]
      have h1 := h x (by simp)
      have h2 := ih (fun y hy => h y (by simp [hy]))
      linarith

theorem sum_le_sum_of_forall {α : Type} {g f : α → Int} {l : List α}
    (h : ∀ x ∈ l, g x ≤ f x) : (l.map g).sum ≤ (l.map f).sum := by
  induction l with
  | nil => simp
  | cons x xs ih =>
      simp only [List.map_cons, List.sum_cons]
      have h1 := h x (by simp)
      have h2 := ih (fun y hy => h y (by simp [hy]))
      linarith

theorem sum_const_of_forall {α : Type} {g : α → Int} {l : List α} {c : Int}
    (h : ∀ x ∈ l, g x = c) : (l.map g).sum = (l.length : Int) * c := by
  induction l with
  | nil => simp
  | cons x xs ih =>
      simp only [List.map_cons, List.sum_cons, List.length_cons]
      rw [h x (by simp), ih (fun y hy => h y (by simp [hy]))]
      push_cast
      ring

/-- Every piece that `optimize_piece` accepts satisfies: the crop fits in
the original image, the saved byte count is non-negative and is at most the
original byte count. -/
theorem optimize_piece_saved_bounds {piece_id : String} {img : Image}
    {r : PieceOptimizationResult} (h : optimize_piece piece_id img = some r) :
    r.original_size = (img.width, img.height) ∧
    r.cropped_image.width ≤ img.width ∧
    r.cropped_image.height ≤ img.height ∧
    0 ≤ r.memory_saved_bytes ∧
    r.memory_saved_bytes ≤ (r.original_size.1 : Int) * (r.original_size.2 : Int) * 4 := by
  rw [optimize_piece] at h
  cases hfcb : find_content_bounds img with
  | none =>
      rw [hfcb] at h
      cases h
  | some bounds =>
      rw [hfcb] at h
      obtain ⟨h1, h2, h3, h4, h5, h6⟩ := fcb_bounds_in_range hfcb
      cases h
      have hw : (crop_image_to_bounds img bounds 2).width ≤ img.width := by
        simp only [crop_image_to_bounds, pilCrop]
        omega
      have hh : (crop_image_to_bounds img bounds 2).height ≤ img.height := by
        simp only [crop_image_to_bounds, pilCrop]
        omega
      refine ⟨rfl, hw, hh, ?_, ?_⟩
      · show 0 ≤ (img.width : Int) * (img.height : Int) * 4 -
          ((crop_image_to_bounds img bounds 2).width : Int) *
            ((crop_image_to_bounds img bounds 2).height : Int) * 4
        have hprod : ((crop_image_to_bounds img bounds 2).width : Int) *
            ((crop_image_to_bounds img bounds 2).height : Int) ≤
            (img.width : Int) * (img.height : Int) := by
          apply mul_le_mul (by exact_mod_cast hw) (by exact_mod_cast hh)
            (by positivity) (by positivity)
        linarith
      · show (img.width : Int) * (img.height : Int) * 4 -
          ((crop_image_to_bounds img bounds 2).width : Int) *
            ((crop_image_to_bounds img bounds 2).height : Int) * 4 ≤
          (((img.width, img.height) : Nat × Nat).1 : Int) *
            (((img.width, img.height) : Nat × Nat).2 : Int) * 4
        have hge : 0 ≤ ((crop_image_to_bounds img bounds 2).width : Int) *
            ((crop_image_to_bounds img bounds 2).height : Int) * 4 := by positivity
        simp only [Prod.fst, Prod.snd]
        linarith

/-- C6: in the generated statistics, `optimized_total_bytes` is
`original - saved`, `memory_reduction_percent` is `saved / original * 100`
when `original > 0` and `0` when `original = 0`; and a batch of four pieces
each reduced from 400x400 to 100x90 yields `total_pieces = 4`,
`original_total_bytes = 4*400*400*4` and
`optimized_total_bytes = 4*100*90*4`. -/
theorem statistics_correct (results : List PieceOptimizationResult)
    (cw ch tob tsb : Int) :
    ((generate_optimization_metadata results cw ch tob tsb).statistics.optimized_total_bytes
      = tob - tsb) ∧
    (0 < tob →
      (generate_optimization_metadata results cw ch tob tsb).statistics.memory_reduction_percent
        = ((tsb : Rat) / (tob : Rat)) * 100) ∧
    (tob = 0 →
      (generate_optimization_metadata results cw ch tob tsb).statistics.memory_reduction_percent
        = 0) ∧
    (results.length = 4 →
      (∀ r ∈ results, r.original_size = (400, 400) ∧
        r.cropped_image.width = 100 ∧ r.cropped_image.height = 90 ∧
        r.memory_saved_bytes = 400 * 400 * 4 - 100 * 90 * 4) →
      (generate_optimization_metadata results cw ch (total_original_bytes results)
          (total_saved_bytes results)).statistics.total_pieces = 4 ∧
      (generate_optimization_metadata results cw ch (total_original_bytes results)
          (total_saved_bytes results)).statistics.original_total_bytes
        = 4 * (400 * 400 * 4) ∧
      (generate_optimization_metadata results cw ch (total_original_bytes results)
          (total_saved_bytes results)).statistics.optimized_total_bytes
        = 4 * (100 * 90 * 4)) := by
  refine ⟨rfl, ?_, ?_, ?_⟩
  · intro h
    dsimp only [generate_optimization_metadata]
    rw [if_pos h]
  · intro h
    dsimp only [generate_optimization_metadata]
    rw [if_neg (by omega)]
  · intro hlen hall
    have hconst1 : ∀ x ∈ results,
        (x.original_size.1 : Int) * (x.original_size.2 : Int) * 4 = 400 * 400 * 4 := by
      intro x hx
      obtain ⟨ho, -, -, -⟩ := hall x hx
      rw [ho]
      decide
    have hconst2 : ∀ x ∈ results,
        x.memory_saved_bytes = 400 * 400 * 4 - 100 * 90 * 4 :=
      fun x hx => (hall x hx).2.2.2
    have htob : total_original_bytes results = 4 * (400 * 400 * 4) := by
      rw [total_original_bytes, foldl_add_eq, sum_const_of_forall hconst1, hlen]
      decide
    have htsb : total_saved_bytes results = 4 * (400 * 400 * 4 - 100 * 90 * 4) := by
      rw [total_saved_bytes, foldl_add_eq, sum_const_of_forall hconst2, hlen]
      decide
    refine ⟨hlen, htob, ?_⟩
    show total_original_bytes results - total_saved_bytes results = 4 * (100 * 90 * 4)
    rw [htob, htsb]
    decide

/-- Witness for C6 on a concrete batch of four 400x400-to-100x90 pieces. -/
theorem statistics_correct_witness :
    (generate_optimization_metadata demoResults 2048 2048 2560000
        2416000).statistics.memory_reduction_percent
      = ((2416000 : Rat) / (2560000 : Rat)) * 100 ∧
    (generate_optimization_metadata demoResults 2048 2048 (total_original_bytes demoResults)
        (total_saved_bytes demoResults)).statistics.total_pieces = 4 ∧
    (generate_optimization_metadata demoResults 2048 2048 (total_original_bytes demoResults)
        (total_saved_bytes demoResults)).statistics.original_total_bytes
      = 4 * (400 * 400 * 4) ∧
    (generate_optimization_metadata demoResults 2048 2048 (total_original_bytes demoResults)
        (total_saved_bytes demoResults)).statistics.optimized_total_bytes
      = 4 * (100 * 90 * 4) := by
  refine ⟨(statistics_correct demoResults 2048 2048 2560000 2416000).2.1 (by decide), ?_⟩
  exact (statistics_correct demoResults 2048 2048 0 0).2.2.2 (by decide) (by decide)

/-- C7: a fully transparent source image is skipped: `optimize_piece`
returns `None`, the piece contributes no result, no metadata entry and no
statistics, and its presence does not change the outcome of
`optimize_grid_size`. -/
theorem transparent_piece_skipped (pid : String) (img : Image)
    (files : List PieceInput) (cw ch : Int)
    (h : ∀ i, i < img.height → ∀ j, j < img.width → (img.pix i j).a = 0) :
    optimize_piece pid img = none ∧
    process_pieces (PieceInput.ok pid img :: files) = process_pieces files ∧
    generate_optimization_metadata (process_pieces (PieceInput.ok pid img :: files)) cw ch
        (total_original_bytes (process_pieces (PieceInput.ok pid img :: files)))
        (total_saved_bytes (process_pieces (PieceInput.ok pid img :: files)))
      = generate_optimization_metadata (process_pieces files) cw ch
          (total_original_bytes (process_pieces files))
          (total_saved_bytes (process_pieces files)) ∧
    optimize_grid_size { pieces_dir_exists := true, piece_files := PieceInput.ok pid img :: files }
      = optimize_grid_size { pieces_dir_exists := true, piece_files := files } := by
  have hnone : find_content_bounds img = none := by
    rw [find_content_bounds_eq_none_iff, Bool.eq_false_iff]
    intro hc
    obtain ⟨i, hi, j, hj, hpos⟩ := (hasAnyContent_iff img).mp hc
    have := h i hi j hj
    omega
  have hop : optimize_piece pid img = none := by
    rw [optimize_piece, hnone]
  have hpp : process_pieces (PieceInput.ok pid img :: files) = process_pieces files := by
    rw [process_pieces, process_pieces, List.filterMap_cons]
    simp [optimize_piece_checked, hop]
  refine ⟨hop, hpp, by rw [hpp], ?_⟩
  simp [optimize_grid_size, hpp]

/-- Witness for C7 at the concrete transparent image. -/
theorem transparent_piece_skipped_witness :
    optimize_piece "t" exImgTransparent = none ∧
    process_pieces (PieceInput.ok "t" exImgTransparent :: [PieceInput.ok "piece" exImg])
      = process_pieces [PieceInput.ok "piece" exImg] ∧
    generate_optimization_metadata
        (process_pieces (PieceInput.ok "t" exImgTransparent :: [PieceInput.ok "piece" exImg]))
        2048 2048
        (total_original_bytes
          (process_pieces (PieceInput.ok "t" exImgTransparent :: [PieceInput.ok "piece" exImg])))
        (total_saved_bytes
          (process_pieces (PieceInput.ok "t" exImgTransparent :: [PieceInput.ok "piece" exImg])))
      = generate_optimization_metadata (process_pieces [PieceInput.ok "piece" exImg]) 2048 2048
          (total_original_bytes (process_pieces [PieceInput.ok "piece" exImg]))
          (total_saved_bytes (process_pieces [PieceInput.ok "piece" exImg])) ∧
    optimize_grid_size
        { pieces_dir_exists := true
          piece_files := PieceInput.ok "t" exImgTransparent :: [PieceInput.ok "piece" exImg] }
      = optimize_grid_size
          { pieces_dir_exists := true, piece_files := [PieceInput.ok "piece" exImg] } :=
  transparent_piece_skipped "t" exImgTransparent [PieceInput.ok "piece" exImg] 2048 2048
    (by decide)

theorem process_pieces_eq_nil_iff (files : List PieceInput) :
    process_pieces files = [] ↔ ∀ f ∈ files, optimize_piece_checked f = none := by
  rw [process_pieces]
  exact List.filterMap_eq_nil_iff

/-- C9: `optimize_grid_size` succeeds exactly when the pieces directory
exists and at least one piece file is optimized successfully; a raising
piece is converted to `None` by the try/except and never aborts the
batch. -/
theorem optimize_grid_size_success_iff (input : GridSizeInput) :
    (optimize_grid_size input = true ↔
      input.pieces_dir_exists = true ∧
        ∃ f ∈ input.piece_files, (optimize_piece_checked f).isSome = true) ∧
    optimize_piece_checked PieceInput.loadError = none := by
  refine ⟨?_, rfl⟩
  rcases input with ⟨d, files⟩
  cases d with
  | false =>
      constructor
      · intro hfalse
        simp [optimize_grid_size] at hfalse
      · rintro ⟨hd, -⟩
        simp at hd
  | true =>
      have hred : optimize_grid_size { pieces_dir_exists := true, piece_files := files }
          = if (process_pieces files).isEmpty then false else true := rfl
      rw [hred]
      by_cases he : (process_pieces files).isEmpty
      · rw [if_pos he]
        constructor
        · intro hfalse
          simp at hfalse
        · rintro ⟨-, f, hf, hsome⟩
          exfalso
          rw [List.isEmpty_iff] at he
          have hnone := (process_pieces_eq_nil_iff files).mp he f hf
          rw [hnone] at hsome
          simp at hsome
      · rw [if_neg he]
        constructor
        · intro hdummy
          refine ⟨rfl, ?_⟩
          by_contra hnon
          push_neg at hnon
          apply he
          rw [List.isEmpty_iff]
          apply (process_pieces_eq_nil_iff files).mpr
          intro f hf
          have hne := hnon f hf
          cases hopt : optimize_piece_checked f with
          | none => rfl
          | some v =>
              rw [hopt] at hne
              exact absurd rfl hne
        · intro hdummy
          rfl

/-- Witness for C9: one successfully optimized piece makes the batch
succeed. -/
theorem optimize_grid_size_success_iff_witness :
    optimize_grid_size
        { pieces_dir_exists := true, piece_files := [PieceInput.ok "piece" exImg] } = true :=
  (optimize_grid_size_success_iff
      { pieces_dir_exists := true, piece_files := [PieceInput.ok "piece" exImg] }).1.mpr
    ⟨rfl, PieceInput.ok "piece" exImg, List.mem_singleton.mpr rfl, rfl⟩

/-- C10: the clamped crop never exceeds the original image, so each kept
piece saves a non-negative number of bytes, and in the batch statistics
`0 ≤ bytes_saved ≤ original_total_bytes` and
`optimized_total_bytes ≤ original_total_bytes`. -/
theorem crops_within_image_and_stats_bounded (pid : String) (img : Image)
    (r : PieceOptimizationResult) (files : List PieceInput) (cw ch : Int)
    (h : optimize_piece pid img = some r) :
    r.cropped_image.width ≤ img.width ∧
    r.cropped_image.height ≤ img.height ∧
    0 ≤ r.memory_saved_bytes ∧
    0 ≤ (generate_optimization_metadata (process_pieces files) cw ch
        (total_original_bytes (process_pieces files))
        (total_saved_bytes (process_pieces files))).statistics.bytes_saved ∧
    (generate_optimization_metadata (process_pieces files) cw ch
        (total_original_bytes (process_pieces files))
        (total_saved_bytes (process_pieces files))).statistics.bytes_saved
      ≤ (generate_optimization_metadata (process_pieces files) cw ch
          (total_original_bytes (process_pieces files))
          (total_saved_bytes (process_pieces files))).statistics.original_total_bytes ∧
    (generate_optimization_metadata (process_pieces files) cw ch
        (total_original_bytes (process_pieces files))
        (total_saved_bytes (process_pieces files))).statistics.optimized_total_bytes
      ≤ (generate_optimization_metadata (process_pieces files) cw ch
          (total_original_bytes (process_pieces files))
          (total_saved_bytes (process_pieces files))).statistics.original_total_bytes := by
  obtain ⟨-, hw, hh, hs, -⟩ := optimize_piece_saved_bounds h
  have hper : ∀ x ∈ process_pieces files,
      0 ≤ x.memory_saved_bytes ∧
      x.memory_saved_bytes ≤ (x.original_size.1 : Int) * (x.original_size.2 : Int) * 4 := by
    intro x hx
    rw [process_pieces, List.mem_filterMap] at hx
    obtain ⟨a, ha, hax⟩ := hx
    cases a with
    | loadError => simp [optimize_piece_checked] at hax
    | ok pid2 img2 =>
        obtain ⟨-, -, -, hs2, hle2⟩ :=
          optimize_piece_saved_bounds (hax : optimize_piece pid2 img2 = some x)
        exact ⟨hs2, hle2⟩
  have htsb0 : 0 ≤ total_saved_bytes (process_pieces files) := by
    rw [total_saved_bytes, foldl_add_eq, zero_add]
    exact sum_nonneg_of_forall (fun x hx => (hper x hx).1)
  have htle : total_saved_bytes (process_pieces files)
      ≤ total_original_bytes (process_pieces files) := by
    rw [total_saved_bytes, total_original_bytes, foldl_add_eq, foldl_add_eq,
      zero_add, zero_add]
    exact sum_le_sum_of_forall (fun x hx => (hper x hx).2)
  refine ⟨hw, hh, hs, htsb0, htle, ?_⟩
  show total_original_bytes (process_pieces files) - total_saved_bytes (process_pieces files)
    ≤ total_original_bytes (process_pieces files)
  linarith

/-- Witness for C10 at the concrete 10x10 piece. -/
theorem crops_within_image_and_stats_bounded_witness :
    exPieceResult.cropped_image.width ≤ exImg.width ∧
    exPieceResult.cropped_image.height ≤ exImg.height ∧
    0 ≤ exPieceResult.memory_saved_bytes ∧
    0 ≤ (generate_optimization_metadata (process_pieces [PieceInput.ok "piece" exImg]) 2048 2048
        (total_original_bytes (process_pieces [PieceInput.ok "piece" exImg]))
        (total_saved_bytes (process_pieces [PieceInput.ok "piece" exImg]))).statistics.bytes_saved ∧
    (generate_optimization_metadata (process_pieces [PieceInput.ok "piece" exImg]) 2048 2048
        (total_original_bytes (process_pieces [PieceInput.ok "piece" exImg]))
        (total_saved_bytes (process_pieces [PieceInput.ok "piece" exImg]))).statistics.bytes_saved
      ≤ (generate_optimization_metadata (process_pieces [PieceInput.ok "piece" exImg]) 2048 2048
          (total_original_bytes (process_pieces [PieceInput.ok "piece" exImg]))
          (total_saved_bytes (process_pieces [PieceInput.ok "piece" exImg]))).statistics.original_total_bytes ∧
    (generate_optimization_metadata (process_pieces [PieceInput.ok "piece" exImg]) 2048 2048
        (total_original_bytes (process_pieces [PieceInput.ok "piece" exImg]))
        (total_saved_bytes (process_pieces [PieceInput.ok "piece" exImg]))).statistics.optimized_total_bytes
      ≤ (generate_optimization_metadata (process_pieces [PieceInput.ok "piece" exImg]) 2048 2048
          (total_original_bytes (process_pieces [PieceInput.ok "piece" exImg]))
          (total_saved_bytes (process_pieces [PieceInput.ok "piece" exImg]))).statistics.original_total_bytes :=
  crops_within_image_and_stats_bounded "piece" exImg exPieceResult
    [PieceInput.ok "piece" exImg] 2048 2048 rfl

/-- C1 failing-input evaluation: running the `optimize_puzzle_assets.py`
pipeline on the 10x10 test piece writes `bounds.width = bounds.height = 5`
into the metadata while the saved cropped image is 10x10, so the recorded
bounds do not match the cropped image dimensions. -/
theorem metadata_width_mismatch_on_padded_piece :
    (generate_optimization_metadata (process_pieces [PieceInput.ok "piece" exImg]) 2048 2048
        (total_original_bytes (process_pieces [PieceInput.ok "piece" exImg]))
        (total_saved_bytes (process_pieces [PieceInput.ok "piece" exImg]))).pieces.map
      (fun e => (e.bounds.width, e.bounds.height)) = [((5 : Int), (5 : Int))] ∧
    (process_pieces [PieceInput.ok "piece" exImg]).map
      (fun r => ((r.cropped_image.width : Int), (r.cropped_image.height : Int)))
      = [((10 : Int), (10 : Int))] ∧
    ((5 : Int), (5 : Int)) ≠ ((10 : Int), (10 : Int)) := by
  refine ⟨by decide, by decide, by decide⟩

/-- C2 failing-input evaluation: on the box with `left = 50`, `top = 30`,
`right = 149`, `bottom = 119`, the width/height properties of
`optimize_puzzle_assets.py` (and `_fixed.py`) give `99 x 89`, not the
inclusive `100 x 90` that the spec derives and that the no-padding variant
computes. -/
theorem bounding_box_width_not_inclusive :
    BoundingBox.width { left := 50, top := 30, right := 149, bottom := 119 } = 99 ∧
    BoundingBox.height { left := 50, top := 30, right := 149, bottom := 119 } = 89 ∧
    (99 : Int) ≠ 100 ∧ (89 : Int) ≠ 90 ∧
    NoPadding.width { left := 50, top := 30, right := 149, bottom := 119 } = 100 ∧
    NoPadding.height { left := 50, top := 30, right := 149, bottom := 119 } = 90 := by
  refine ⟨by decide, by decide, by decide, by decide, by decide, by decide⟩

/-- C3 failing-input evaluation: the metadata generator of
`optimize_puzzle_assets.py` performs no dimension check, so on the 10x10
test piece it happily emits a document whose single entry records width 5
for a 10-pixel-wide cropped image; the no-padding variant generator
rejects those very results with an error. -/
theorem metadata_mismatch_not_rejected :
    exceptIsOk (NoPadding.generate_optimization_metadata
        (process_pieces [PieceInput.ok "piece" exImg]) 2048 2048
        (total_original_bytes (process_pieces [PieceInput.ok "piece" exImg]))
        (total_saved_bytes (process_pieces [PieceInput.ok "piece" exImg]))) = false ∧
    (generate_optimization_metadata (process_pieces [PieceInput.ok "piece" exImg]) 2048 2048
        (total_original_bytes (process_pieces [PieceInput.ok "piece" exImg]))
        (total_saved_bytes (process_pieces [PieceInput.ok "piece" exImg]))).pieces.length
      = 1 ∧
    (generate_optimization_metadata (process_pieces [PieceInput.ok "piece" exImg]) 2048 2048
        (total_original_bytes (process_pieces [PieceInput.ok "piece" exImg]))
        (total_saved_bytes (process_pieces [PieceInput.ok "piece" exImg]))).pieces.map
      (fun e => e.bounds.width) = [(5 : Int)] ∧
    (process_pieces [PieceInput.ok "piece" exImg]).map
      (fun r => (r.cropped_image.width : Int)) = [(10 : Int)] := by
  refine ⟨by decide, by decide, by decide, by decide⟩

end PuzzleAssets
